import Mathlib

/-!
Verification development for the siren controller (`app.py`).

The development shallowly embeds the program:

* the pattern synthesizer `make_pattern_wav` becomes a pure function from a
  list of segments to a list of stereo frames (pairs of signed sample values);
  Python's `math.sin(2*pi*f*t)` is an external library call, modelled by an
  abstract function `sinv : ℚ → ℚ → ℚ` taking the frequency and the time,
  with the contract `|sinv f t| ≤ 1` supplied where a claim needs it;
  Python floats are modelled by rationals and `int(...)` by truncation
  toward zero (`pyInt`);
* the global mutable state (`current_mode_idx`, `play_proc`, `running`, the
  set of live external player processes, the upload files and the custom
  asset file) becomes the structure `SirenState`, and each controller
  operation becomes a state-transformer; outcomes of the external
  collaborators (process spawn, ffmpeg transcode, one-shot playback) are
  Boolean parameters of the operations;
* an operation that lets a Python exception escape (a failed `Popen`) is
  modelled by returning `false` in its completion flag, the global state at
  the moment the exception propagated being the returned state.
-/

/-- Python `int(q)`: truncation toward zero. -/
def pyInt (q : ℚ) : ℤ :=
  if 0 ≤ q then ⌊q⌋ else -⌊-q⌋

/-- `SAMPLE_RATE = 44100` from the audio config block. -/
def SAMPLE_RATE : ℚ := 44100

/-- `BITS = 16` from the audio config block. -/
def BITS : ℕ := 16

/-- `AMPLITUDE = 0.75` from the audio config block. -/
def AMPLITUDE : ℚ := 3 / 4

/-- `MODE_NAMES = ["flood", "earthquake", "custom"]`. -/
def MODE_NAMES : List String := ["flood", "earthquake", "custom"]

/-- Segment kinds of a pattern tuple: `"silence"`, `"tone"` or `"sweep"`. -/
inductive SegKind where
  | silenceK
  | toneK
  | sweepK
  deriving DecidableEq, Repr

/-- One pattern tuple `(kind, seconds, f0, f1)` as used by `make_pattern_wav`. -/
structure Seg where
  kind : SegKind
  seconds : ℚ
  f0 : ℚ
  f1 : ℚ
  deriving DecidableEq, Repr

/-- `max_amp = int((2**(BITS-1) - 1) * AMPLITUDE)` from `make_pattern_wav`. -/
def max_amp : ℤ := pyInt (((2 : ℚ) ^ (BITS - 1) - 1) * AMPLITUDE)

/-- The sweep frequency expression of `make_pattern_wav`:
`f0 + (f1 - f0) * (i / max(1, n-1))`, with `n` the segment's frame count and
`i` the frame index inside the segment. -/
def sweepFreq (f0 f1 : ℚ) (n : ℤ) (i : ℕ) : ℚ :=
  f0 + (f1 - f0) * ((i : ℚ) / ((max 1 (n - 1) : ℤ) : ℚ))

/-- `val = int(max_amp * math.sin(2 * math.pi * freq * t))`, with the library
sine modelled by the abstract `sinv`. -/
def sampleVal (sinv : ℚ → ℚ → ℚ) (freq t : ℚ) : ℤ :=
  pyInt ((max_amp : ℚ) * sinv freq t)

/-- The frames emitted for one segment by the loop body of `make_pattern_wav`:
`n = int(seconds * rate)` frames, each written once per channel (`s + s`,
two channels); silence segments emit zero samples. -/
def segFrames (sinv : ℚ → ℚ → ℚ) (rate : ℚ) (g : Seg) : List (ℤ × ℤ) :=
  let n : ℤ := pyInt (g.seconds * rate)
  match g.kind with
  | SegKind.silenceK => List.replicate n.toNat (0, 0)
  | SegKind.toneK =>
      (List.range n.toNat).map (fun (i : ℕ) =>
        let t : ℚ := (i : ℚ) / rate
        let v := sampleVal sinv g.f0 t
        (v, v))
  | SegKind.sweepK =>
      (List.range n.toNat).map (fun (i : ℕ) =>
        let t : ℚ := (i : ℚ) / rate
        let v := sampleVal sinv (sweepFreq g.f0 g.f1 n i) t
        (v, v))

/-- `make_pattern_wav`: concatenation of all segments' frames, in order.
The source hardcodes `rate = SAMPLE_RATE`; the rate is kept as a parameter so
properties quantified over sample rates can be stated. -/
def make_pattern_wav (sinv : ℚ → ℚ → ℚ) (rate : ℚ) (pattern : List Seg) :
    List (ℤ × ℤ) :=
  pattern.flatMap (segFrames sinv rate)

/-- Little-endian two-byte signed encoding `int.to_bytes(val, 2, "little",
signed=True)` of one sample, as the pair of byte values. -/
def toLE2 (v : ℤ) : List ℕ :=
  [((v % 65536) % 256).toNat, ((v % 65536) / 256).toNat]

/-- The byte stream written by `wf.writeframes(frames)`: each frame's two
channel samples encoded little-endian. -/
def pcmBytes (frames : List (ℤ × ℤ)) : List ℕ :=
  frames.flatMap (fun fr => toLE2 fr.1 ++ toLE2 fr.2)

/-- `FLOOD_PATTERN` from the source. -/
def FLOOD_PATTERN : List Seg :=
  [⟨SegKind.sweepK, 12 / 10, 450, 1000⟩, ⟨SegKind.sweepK, 12 / 10, 1000, 450⟩]

/-- `EARTHQUAKE_PATTERN` from the source. -/
def EARTHQUAKE_PATTERN : List Seg :=
  [⟨SegKind.sweepK, 1 / 2, 600, 1600⟩, ⟨SegKind.silenceK, 15 / 100, 0, 0⟩,
   ⟨SegKind.sweepK, 1 / 2, 600, 1600⟩, ⟨SegKind.silenceK, 15 / 100, 0, 0⟩,
   ⟨SegKind.sweepK, 1 / 2, 600, 1600⟩, ⟨SegKind.silenceK, 12 / 10, 0, 0⟩]

/-- Path of the custom asset file, `CUSTOM_WAV = AUDIO_DIR / "custom.wav"`. -/
def CUSTOM_WAV : String := "custom.wav"

/-- The global mutable state of `app.py`:
`current_mode_idx`, `play_proc` (the external looping-player process, as an
abstract handle id), `running`, plus the observable filesystem effects the
claims mention: `live` is the list of handle ids of external player
processes spawned and not yet killed, `nextId` a fresh-handle source,
`files` the temporary upload files currently existing under `UPLOADS_DIR`,
and `customContent` the content of `CUSTOM_WAV` (`none` when the file does
not exist). The `state_lock` serializes every operation, so operations are
modelled as sequential state transformers. -/
structure SirenState where
  current_mode_idx : ℕ
  play_proc : Option ℕ
  running : Bool
  nextId : ℕ
  live : List ℕ
  files : List String
  customContent : Option String
  deriving DecidableEq, Repr

/-- The state at process start: index 0, no process, not running. -/
def initState : SirenState :=
  ⟨0, none, false, 0, [], [], none⟩

/-- `current_mode()`: `MODE_NAMES[current_mode_idx]`. -/
def current_mode (s : SirenState) : String :=
  MODE_NAMES.getD s.current_mode_idx ("")

/-- `ensure_default_wavs()`: creates the placeholder custom asset when
`CUSTOM_WAV` does not exist (the built-in `flood.wav`/`earthquake.wav`
assets are not otherwise observed by any claim and are not tracked). -/
def ensure_default_wavs (s : SirenState) : SirenState :=
  match s.customContent with
  | none => { s with customContent := some ("placeholder-tone") }
  | some _ => s

/-- `start_siren()`. `spawnOk` is the outcome of the external
`subprocess.Popen` spawn: when it is `false`, `Popen` raised, the assignment
to `play_proc` never ran and the exception propagated — modelled by the
completion flag `false` with the state as the exception left it. On success
a fresh handle is spawned and recorded. -/
def start_siren (spawnOk : Bool) (s : SirenState) : SirenState × Bool :=
  if s.running then (s, true)
  else
    let s1 := ensure_default_wavs s
    if spawnOk then
      ({ s1 with play_proc := some s1.nextId, running := true,
                 nextId := s1.nextId + 1, live := s1.nextId :: s1.live }, true)
    else (s1, false)

/-- `stop_siren()`: when running, best-effort kill of `play_proc`'s process
group (errors swallowed; killing removes the handle from the live list),
then `play_proc = None`, `running = False`. -/
def stop_siren (s : SirenState) : SirenState :=
  if s.running then
    { s with live := match s.play_proc with
                     | some h => s.live.erase h
                     | none => s.live,
             play_proc := none, running := false }
  else s

/-- `toggle_siren()`: `start_siren() if not running else stop_siren()`. -/
def toggle_siren (spawnOk : Bool) (s : SirenState) : SirenState × Bool :=
  if s.running then (stop_siren s, true) else start_siren spawnOk s

/-- `next_mode()`: advance `current_mode_idx` cyclically; if running, stop
then start again (the `time.sleep(0.15)` between them has no effect on the
modelled state). -/
def next_mode (spawnOk : Bool) (s : SirenState) : SirenState × Bool :=
  let s1 := { s with current_mode_idx := (s.current_mode_idx + 1) % MODE_NAMES.length }
  if s1.running then start_siren spawnOk (stop_siren s1)
  else (s1, true)

/-- Filesystem operations performed by the upload path, in program order,
recorded so structural facts about the upload discipline can be stated. -/
inductive FsOp where
  | save (p : String)
  | transcode (src dst : String)
  | unlink (p : String)
  | renameFile (src dst : String)
  deriving DecidableEq, Repr

/-- `upload_audio` (route `/api/upload`), for a request carrying a file:
save the blob to a temp path `srcPath`, run
`convert_to_wav(srcPath, CUSTOM_WAV)` — ffmpeg writes its output directly to
the custom asset path, `convertOk` being its exit status and `failEffect`
what a failing ffmpeg leaves at the destination — unlink the temp, return
an error if the conversion failed, else restart the loop when the custom
mode is playing. Result: final state, response (`some ok`; `none` when the
restart's spawn raised before a response was produced), and the list of
filesystem operations performed. -/
def upload_audio (convertOk : Bool) (newContent : String)
    (failEffect : Option String → Option String) (spawnOk : Bool)
    (srcPath : String) (s : SirenState) :
    (SirenState × Option Bool) × List FsOp :=
  let tr := [FsOp.save srcPath, FsOp.transcode srcPath CUSTOM_WAV,
             FsOp.unlink srcPath]
  let s1 := { s with files := srcPath :: s.files }
  let s2 := if convertOk then { s1 with customContent := some newContent }
            else { s1 with customContent := failEffect s1.customContent }
  let s3 := { s2 with files := s2.files.erase srcPath }
  (if convertOk then
    if s3.running && (current_mode s3 == "custom") then
      let r := start_siren spawnOk (stop_siren s3)
      (r.1, if r.2 then some true else none)
    else (s3, some true)
  else (s3, some false), tr)

/-- `announce` (route `/api/announce`), for a request carrying a file:
snapshot `was_running` and stop the loop if it was active; save the blob to
`srcPath`; transcode it to `wavPath` (`convertOk` the ffmpeg outcome) — on
failure return the error response from inside the `try`, so the resume step
is skipped; on success play the wav once (`playOk` the outcome). The
`finally` block unlinks both temp paths on every exit path. Only after the
`try`/`finally`, and only on the path that did not return early, is the
loop resumed when `was_running` held (`spawnOk` the resume spawn outcome; a
failed resume spawn raises, so no response is produced: `Except.error ()`). -/
def announce (convertOk playOk spawnOk : Bool) (srcPath wavPath : String)
    (s : SirenState) : SirenState × Except Unit Bool :=
  let was_running := s.running
  let s1 := if was_running then stop_siren s else s
  let s2 := { s1 with files := srcPath :: s1.files }
  if convertOk then
    let s3 := { s2 with files := wavPath :: s2.files }
    let ok := playOk
    let s4 := { s3 with files := (s3.files.erase srcPath).erase wavPath }
    if was_running then
      let r := start_siren spawnOk s4
      (r.1, if r.2 then Except.ok ok else Except.error ())
    else (s4, Except.ok ok)
  else
    let s4 := { s2 with files := (s2.files.erase srcPath).erase wavPath }
    (s4, Except.ok false)

/-- Status record returned by `status()` (the `modes` field is the constant
`MODE_NAMES` and is omitted). -/
structure Status where
  mode : String
  running : Bool
  custom_exists : Bool
  deriving DecidableEq, Repr

/-- `status()`: `{"mode": current_mode(), "running": running,
"custom_exists": CUSTOM_WAV.exists()}`. -/
def status (s : SirenState) : Status :=
  ⟨current_mode s, s.running, s.customContent.isSome⟩

/-- One controller operation together with the outcomes of the external
collaborators it consults. -/
inductive COp where
  | cStart (spawnOk : Bool)
  | cStop
  | cToggle (spawnOk : Bool)
  | cNextMode (spawnOk : Bool)
  | cUpload (convertOk : Bool) (newContent : String)
      (failEffect : Option String → Option String) (spawnOk : Bool)
      (srcPath : String)
  | cAnnounce (convertOk playOk spawnOk : Bool) (srcPath wavPath : String)

/-- The state reached after one controller operation completes (for an
operation that raised, the state at the moment the exception propagated). -/
def stepC (op : COp) (s : SirenState) : SirenState :=
  match op with
  | COp.cStart so => (start_siren so s).1
  | COp.cStop => stop_siren s
  | COp.cToggle so => (toggle_siren so s).1
  | COp.cNextMode so => (next_mode so s).1
  | COp.cUpload co nc fe so sp => (upload_audio co nc fe so sp s).1.1
  | COp.cAnnounce co po so sp wp => (announce co po so sp wp s).1

/-- Run a finite sequence of controller operations from a state. -/
def runFull (ops : List COp) (s : SirenState) : SirenState :=
  ops.foldl (fun st op => stepC op st) s

/-- The controller invariant: when running, `play_proc` holds exactly the
one live handle and it is fresh-bounded; when not running, `play_proc` is
cleared and no external player process is live. -/
def invCheck (s : SirenState) : Bool :=
  if s.running then
    match s.play_proc with
    | some h => s.live == [h] && decide (h < s.nextId)
    | none => false
  else s.play_proc == none && s.live == []

/-- An operation available through `start/stop/toggle` only. -/
def basicOp : COp → Bool
  | COp.cStart _ => true
  | COp.cStop => true
  | COp.cToggle _ => true
  | _ => false

/-! ### Invariant preservation -/

@[simp]
theorem invCheck_files (s : SirenState) (fl : List String) :
    invCheck { s with files := fl } = invCheck s := by
  simp [invCheck]

@[simp]
theorem invCheck_custom (s : SirenState) (c : Option String) :
    invCheck { s with customContent := c } = invCheck s := by
  simp [invCheck]

@[simp]
theorem invCheck_idx (s : SirenState) (i : ℕ) :
    invCheck { s with current_mode_idx := i } = invCheck s := by
  simp [invCheck]

theorem invCheck_initState : invCheck initState = true := by decide

theorem invCheck_start (so : Bool) (s : SirenState) (h : invCheck s = true) :
    invCheck (start_siren so s).1 = true := by
  obtain ⟨idx, pp, run, nid, lv, fl, cu⟩ := s
  cases run
  · have hp : pp = none ∧ lv = [] := by simpa [invCheck] using h
    obtain ⟨hp1, hp2⟩ := hp
    subst hp1; subst hp2
    cases so <;> cases cu <;>
      simp [start_siren, ensure_default_wavs, invCheck]
  · simpa [start_siren] using h

theorem invCheck_stop (s : SirenState) (h : invCheck s = true) :
    invCheck (stop_siren s) = true := by
  obtain ⟨idx, pp, run, nid, lv, fl, cu⟩ := s
  cases run
  · simpa [stop_siren] using h
  · cases pp with
    | none => simp [invCheck] at h
    | some hdl =>
        have hp : lv = [hdl] ∧ hdl < nid := by simpa [invCheck] using h
        simp [stop_siren, invCheck, hp.1]

theorem invCheck_stepC (op : COp) (s : SirenState) (h : invCheck s = true) :
    invCheck (stepC op s) = true := by
  cases op with
  | cStart so => exact invCheck_start so s h
  | cStop => exact invCheck_stop s h
  | cToggle so =>
      by_cases hr : s.running <;>
        simp only [stepC, toggle_siren, hr, if_true, if_false]
      · exact invCheck_stop s h
      · exact invCheck_start so s h
  | cNextMode so =>
      have h1 : invCheck ({ s with current_mode_idx :=
          (s.current_mode_idx + 1) % MODE_NAMES.length } : SirenState) = true := by
        simpa using h
      simp only [stepC, next_mode]
      split
      · exact invCheck_start so _ (invCheck_stop _ h1)
      · exact h1
  | cUpload co nc fe so sp =>
      simp only [stepC, upload_audio]
      split
      · split
        · refine invCheck_start so _ (invCheck_stop _ ?_)
          cases co <;> simpa using h
        · cases co <;> simpa using h
      · cases co <;> simpa using h
  | cAnnounce co po so sp wp =>
      simp only [stepC, announce]
      split <;> try split
      all_goals
        first
          | exact invCheck_start so _ (by simpa using invCheck_stop s h)
          | exact invCheck_start so _ (by simpa using h)
          | simpa using invCheck_stop s h
          | simpa using h

theorem invCheck_runFull (ops : List COp) (s : SirenState)
    (h : invCheck s = true) : invCheck (runFull ops s) = true := by
  induction ops generalizing s with
  | nil => simpa [runFull] using h
  | cons op rest ih =>
      have : runFull (op :: rest) s = runFull rest (stepC op s) := rfl
      rw [this]
      exact ih _ (invCheck_stepC op s h)

theorem live_length_le_one (s : SirenState) (h : invCheck s = true) :
    s.live.length ≤ 1 := by
  obtain ⟨idx, pp, run, nid, lv, fl, cu⟩ := s
  cases run
  · have hl : pp = none ∧ lv = [] := by simpa [invCheck] using h
    simp [hl.2]
  · cases pp with
    | none => simp [invCheck] at h
    | some hdl =>
        have hl : lv = [hdl] ∧ hdl < nid := by simpa [invCheck] using h
        simp [hl.1]

theorem running_iff_proc (s : SirenState) (h : invCheck s = true) :
    s.running = true ↔ s.play_proc.isSome := by
  obtain ⟨idx, pp, run, nid, lv, fl, cu⟩ := s
  cases run
  · have hl : pp = none ∧ lv = [] := by simpa [invCheck] using h
    simp [hl.1]
  · cases pp with
    | none => simp [invCheck] at h
    | some hdl => simp

/-! ### Arithmetic facts about the synthesizer -/

theorem pyInt_eq_floor (q : ℚ) (h : 0 ≤ q) : pyInt q = ⌊q⌋ := by
  simp [pyInt, h]

theorem max_amp_eq : max_amp = 24575 := by
  have h : (((2 : ℚ) ^ (BITS - 1) - 1) * AMPLITUDE) = 98301 / 4 := by
    norm_num [BITS, AMPLITUDE]
  rw [max_amp, h, pyInt_eq_floor _ (by norm_num)]
  rw [Int.floor_eq_iff]
  norm_num

theorem pyInt_bound (q : ℚ) (c : ℕ) (h : |q| ≤ (c : ℚ)) :
    -(c : ℤ) ≤ pyInt q ∧ pyInt q ≤ (c : ℤ) := by
  rcases abs_le.mp h with ⟨h1, h2⟩
  unfold pyInt
  split
  · have h0 : (0 : ℤ) ≤ ⌊q⌋ := Int.floor_nonneg.mpr (by assumption)
    have hc : ⌊q⌋ ≤ (c : ℤ) := by
      have := Int.floor_le_floor h2
      simpa using this
    exact ⟨by omega, hc⟩
  · have hq : (0 : ℚ) ≤ -q := by
      have : ¬(0 : ℚ) ≤ q := by assumption
      linarith
    have h0 : (0 : ℤ) ≤ ⌊-q⌋ := Int.floor_nonneg.mpr hq
    have hc : ⌊-q⌋ ≤ (c : ℤ) := by
      have := Int.floor_le_floor (show -q ≤ (c : ℚ) by linarith)
      simpa using this
    exact ⟨by omega, by omega⟩

theorem sampleVal_bound (sinv : ℚ → ℚ → ℚ) (hs : ∀ f t, |sinv f t| ≤ 1)
    (f t : ℚ) : -24575 ≤ sampleVal sinv f t ∧ sampleVal sinv f t ≤ 24575 := by
  have hq : |(max_amp : ℚ) * sinv f t| ≤ ((24575 : ℕ) : ℚ) := by
    rw [abs_mul, max_amp_eq]
    have := hs f t
    have h1 : |((24575 : ℤ) : ℚ)| = (24575 : ℚ) := by norm_num
    calc |((24575 : ℤ) : ℚ)| * |sinv f t| ≤ |((24575 : ℤ) : ℚ)| * 1 := by
          apply mul_le_mul_of_nonneg_left this (abs_nonneg _)
      _ = ((24575 : ℕ) : ℚ) := by norm_num
  have := pyInt_bound ((max_amp : ℚ) * sinv f t) 24575 hq
  unfold sampleVal
  constructor
  · have := this.1; omega
  · have := this.2; omega

theorem segFrames_length (sinv : ℚ → ℚ → ℚ) (rate : ℚ) (g : Seg) :
    (segFrames sinv rate g).length = (pyInt (g.seconds * rate)).toNat := by
  obtain ⟨k, sec, f0, f1⟩ := g
  cases k <;> simp [segFrames]

theorem make_pattern_wav_length (sinv : ℚ → ℚ → ℚ) (rate : ℚ)
    (pattern : List Seg) :
    (make_pattern_wav sinv rate pattern).length
      = (pattern.map (fun g => (pyInt (g.seconds * rate)).toNat)).sum := by
  induction pattern with
  | nil => simp [make_pattern_wav]
  | cons g rest ih =>
      simp [make_pattern_wav, segFrames_length]
      simpa [make_pattern_wav] using ih

theorem segFrames_shape (sinv : ℚ → ℚ → ℚ) (rate : ℚ) (g : Seg)
    (fr : ℤ × ℤ) (h : fr ∈ segFrames sinv rate g) :
    fr = ((0 : ℤ), (0 : ℤ)) ∨
      ∃ f t, fr = (sampleVal sinv f t, sampleVal sinv f t) := by
  obtain ⟨k, sec, f0, f1⟩ := g
  cases k
  · left
    simpa [segFrames] using List.eq_of_mem_replicate h
  · right
    simp [segFrames] at h
    obtain ⟨i, _, hfr⟩ := h
    exact ⟨_, _, hfr.symm⟩
  · right
    simp [segFrames] at h
    obtain ⟨i, _, hfr⟩ := h
    exact ⟨_, _, hfr.symm⟩

theorem make_pattern_wav_shape (sinv : ℚ → ℚ → ℚ) (rate : ℚ)
    (pattern : List Seg) (fr : ℤ × ℤ)
    (h : fr ∈ make_pattern_wav sinv rate pattern) :
    fr = ((0 : ℤ), (0 : ℤ)) ∨
      ∃ f t, fr = (sampleVal sinv f t, sampleVal sinv f t) := by
  unfold make_pattern_wav at h
  rw [List.mem_flatMap] at h
  obtain ⟨g, _, hg⟩ := h
  exact segFrames_shape sinv rate g fr hg

/-! ### Further helper lemmas about the controller -/

theorem runFull_append_one (ops : List COp) (op : COp) (s : SirenState) :
    runFull (ops ++ [op]) s = stepC op (runFull ops s) := by
  simp [runFull, List.foldl_append]

theorem start_noop_when_running (so : Bool) (s : SirenState)
    (h : s.running = true) : start_siren so s = (s, true) := by
  simp [start_siren, h]

theorem stop_live_nil (s : SirenState) (h : invCheck s = true) :
    (stop_siren s).live = [] := by
  obtain ⟨idx, pp, run, nid, lv, fl, cu⟩ := s
  cases run
  · have hl : pp = none ∧ lv = [] := by simpa [invCheck] using h
    simp [stop_siren, hl.2]
  · cases pp with
    | none => simp [invCheck] at h
    | some hdl =>
        have hl : lv = [hdl] ∧ hdl < nid := by simpa [invCheck] using h
        simp [stop_siren, hl.1]

theorem erase_two (sp wp : String) (fl : List String) :
    ((wp :: sp :: fl).erase sp).erase wp = fl := by
  by_cases h : sp = wp
  · subst h
    rw [List.erase_cons_head, List.erase_cons_head]
  · have h1 : (wp :: sp :: fl).erase sp = wp :: (sp :: fl).erase sp :=
      List.erase_cons_tail (by simpa using fun hh : wp = sp => h hh.symm)
    rw [h1, List.erase_cons_head, List.erase_cons_head]

/-! ### Claim theorems -/

/-- C3: for a call to `start_siren` in the idle state whose external spawn
fails (`Popen` raises), the failure is reported to the caller — the
completion flag is `false`, modelling the exception that Flask's request
handler turns into an error response without crashing the process — and the
playback state remains idle with no partial state: `running` stays `false`,
no process handle is retained, no live process and no fresh handle id were
created. -/
theorem C3_spawn_failure_idle (s : SirenState) (h1 : s.running = false)
    (h2 : s.play_proc = none) :
    (start_siren false s).2 = false
    ∧ (start_siren false s).1.running = false
    ∧ (start_siren false s).1.play_proc = none
    ∧ (start_siren false s).1.live = s.live
    ∧ (start_siren false s).1.nextId = s.nextId := by
  obtain ⟨idx, pp, run, nid, lv, fl, cu⟩ := s
  simp only at h1 h2
  subst h1; subst h2
  cases cu <;> simp [start_siren, ensure_default_wavs]

/-- Witness for C3 at the initial state. -/
theorem C3_witness :
    (start_siren false initState).2 = false
    ∧ (start_siren false initState).1.running = false
    ∧ (start_siren false initState).1.play_proc = none
    ∧ (start_siren false initState).1.live = initState.live
    ∧ (start_siren false initState).1.nextId = initState.nextId :=
  C3_spawn_failure_idle initState rfl rfl

/-- C4: over every finite sequence of `start`/`stop`/`toggle` operations
from the initial idle state, at most one external playback handle is live
at any point; `start` in a non-idle state spawns nothing (the state is
returned unchanged); and after a `stop` completes, no handle from the
previous loop remains live. -/
theorem C4_single_live_handle (ops : List COp)
    (_hb : ∀ op ∈ ops, basicOp op = true) :
    (runFull ops initState).live.length ≤ 1
    ∧ (runFull (ops ++ [COp.cStop]) initState).live = []
    ∧ ∀ so : Bool, (runFull ops initState).running = true →
        runFull (ops ++ [COp.cStart so]) initState = runFull ops initState := by
  have hinv := invCheck_runFull ops initState invCheck_initState
  refine ⟨live_length_le_one _ hinv, ?_, ?_⟩
  · rw [runFull_append_one]
    exact stop_live_nil _ hinv
  · intro so hrun
    rw [runFull_append_one]
    show (start_siren so (runFull ops initState)).1 = runFull ops initState
    rw [start_noop_when_running so _ hrun]

/-- Witness for C4 on the sequence `[start]`. -/
theorem C4_witness :
    ((runFull [COp.cStart true] initState).live.length ≤ 1
      ∧ (runFull ([COp.cStart true] ++ [COp.cStop]) initState).live = [])
    ∧ runFull ([COp.cStart true] ++ [COp.cStart false]) initState
        = runFull [COp.cStart true] initState :=
  ⟨⟨(C4_single_live_handle [COp.cStart true] (by simp [basicOp])).1,
    (C4_single_live_handle [COp.cStart true] (by simp [basicOp])).2.1⟩,
   (C4_single_live_handle [COp.cStart true] (by simp [basicOp])).2.2 false rfl⟩

/-- C5: `next_mode` always advances the mode index cyclically by one; when
the state was idle it spawns no playback process and the state is unchanged
apart from the mode index; when the state was looping (and the restart's
spawn succeeds) the state ends looping on the new mode, holding a freshly
spawned external handle different from the one in use before the switch. -/
theorem C5_switch_mode (s : SirenState) (hinv : invCheck s = true)
    (so : Bool) :
    (next_mode so s).1.current_mode_idx
        = (s.current_mode_idx + 1) % MODE_NAMES.length
    ∧ (s.running = false →
        (next_mode so s).1 = { s with current_mode_idx :=
          (s.current_mode_idx + 1) % MODE_NAMES.length })
    ∧ (s.running = true → so = true →
        (next_mode so s).1.running = true
        ∧ (next_mode so s).1.play_proc = some s.nextId
        ∧ (next_mode so s).1.play_proc ≠ s.play_proc) := by
  obtain ⟨idx, pp, run, nid, lv, fl, cu⟩ := s
  cases run
  · simp [next_mode]
  · cases pp with
    | none => simp [invCheck] at hinv
    | some hdl =>
        have hl : lv = [hdl] ∧ hdl < nid := by simpa [invCheck] using hinv
        refine ⟨?_, by simp, ?_⟩
        · cases so <;> cases cu <;>
            simp [next_mode, stop_siren, start_siren, ensure_default_wavs]
        · intro _ hso
          subst hso
          cases cu <;>
            simp [next_mode, stop_siren, start_siren, ensure_default_wavs] <;>
              omega

/-- Witness for C5 in a looping state. -/
theorem C5_witness :
    (next_mode true (stepC (COp.cStart true) initState)).1.current_mode_idx
        = ((stepC (COp.cStart true) initState).current_mode_idx + 1)
            % MODE_NAMES.length
    ∧ ((stepC (COp.cStart true) initState).running = false →
        (next_mode true (stepC (COp.cStart true) initState)).1
          = { stepC (COp.cStart true) initState with current_mode_idx :=
              ((stepC (COp.cStart true) initState).current_mode_idx + 1)
                % MODE_NAMES.length })
    ∧ ((stepC (COp.cStart true) initState).running = true → true = true →
        (next_mode true (stepC (COp.cStart true) initState)).1.running = true
        ∧ (next_mode true (stepC (COp.cStart true) initState)).1.play_proc
            = some (stepC (COp.cStart true) initState).nextId
        ∧ (next_mode true (stepC (COp.cStart true) initState)).1.play_proc
            ≠ (stepC (COp.cStart true) initState).play_proc) :=
  C5_switch_mode (stepC (COp.cStart true) initState) (by decide) true

/-- C10: after process start and after every finite sequence of completed
controller operations (start, stop, toggle, next-mode, upload, announce),
the `running` flag is `true` exactly when a playback process handle is held
in `play_proc`. -/
theorem C10_flag_handle_sync (ops : List COp) :
    ((runFull ops initState).running = true)
      ↔ (runFull ops initState).play_proc.isSome :=
  running_iff_proc _ (invCheck_runFull ops initState invCheck_initState)

/-- Witness for C10 on a sequence exercising start, announce and stop. -/
theorem C10_witness :
    ((runFull [COp.cStart true,
        COp.cAnnounce false true true ("a.webm") "a.wav", COp.cStop]
          initState).running = true)
      ↔ (runFull [COp.cStart true,
          COp.cAnnounce false true true ("a.webm") "a.wav", COp.cStop]
            initState).play_proc.isSome :=
  C10_flag_handle_sync _

/-- C6: for every pattern and every (nonnegative) sample rate, the
synthesizer's output length in frames is exactly the sum over the segments
of `⌊duration * sampleRate⌋`, and every frame carries one sample value
replicated across both channels. -/
theorem C6_synth_length (sinv : ℚ → ℚ → ℚ) (rate : ℚ) (pattern : List Seg)
    (hr : 0 ≤ rate) (hd : ∀ g ∈ pattern, 0 ≤ g.seconds) :
    (make_pattern_wav sinv rate pattern).length
      = (pattern.map (fun g => (⌊g.seconds * rate⌋).toNat)).sum
    ∧ ∀ fr ∈ make_pattern_wav sinv rate pattern, fr.1 = fr.2 := by
  constructor
  · rw [make_pattern_wav_length]
    congr 1
    apply List.map_congr_left
    intro g hg
    rw [pyInt_eq_floor _ (mul_nonneg (hd g hg) hr)]
  · intro fr hfr
    rcases make_pattern_wav_shape sinv rate pattern fr hfr with h0 | ⟨f, t, hft⟩
    · simp [h0]
    · simp [hft]

/-- Witness for C6 on the flood pattern at the configured sample rate. -/
theorem C6_witness :
    (make_pattern_wav (fun _ _ => 0) SAMPLE_RATE FLOOD_PATTERN).length
      = (FLOOD_PATTERN.map
          (fun g => (⌊g.seconds * SAMPLE_RATE⌋).toNat)).sum
    ∧ ∀ fr ∈ make_pattern_wav (fun _ _ => 0) SAMPLE_RATE FLOOD_PATTERN,
        fr.1 = fr.2 :=
  C6_synth_length (fun _ _ => 0) SAMPLE_RATE FLOOD_PATTERN
    (by simp [SAMPLE_RATE])
    (by intro g hg
        simp [FLOOD_PATTERN] at hg
        rcases hg with h | h <;> subst h <;> norm_num)

/-- C7: in a sweep segment of `n` frames the instantaneous frequency at
frame index `i` is `f0 + (f1 - f0) * i / max(1, n-1)` — exactly the value
`segFrames` feeds to the sine for each sweep frame — so the frequency at
index 0 is `f0` and, for segments of at least two frames, the frequency at
the last index is exactly `f1`; the divisor `max 1 (n-1)` is positive even
for single-frame segments, so the formula never divides by zero. -/
theorem C7_sweep_frequency (f0 f1 : ℚ) (n : ℤ) :
    sweepFreq f0 f1 n 0 = f0
    ∧ (2 ≤ n → sweepFreq f0 f1 n (n - 1).toNat = f1)
    ∧ (0 : ℤ) < max 1 (n - 1)
    ∧ (∀ (sinv : ℚ → ℚ → ℚ) (rate : ℚ) (g : Seg),
        g.kind = SegKind.sweepK →
          segFrames sinv rate g
            = (List.range (pyInt (g.seconds * rate)).toNat).map
                (fun (i : ℕ) =>
                  let v := sampleVal sinv
                    (sweepFreq g.f0 g.f1 (pyInt (g.seconds * rate)) i)
                    ((i : ℚ) / rate)
                  (v, v))) := by
  refine ⟨?_, ?_, ?_, ?_⟩
  · simp [sweepFreq]
  · intro hn
    have h1 : max 1 (n - 1) = n - 1 := max_eq_right (by omega)
    have h2 : (((n - 1).toNat : ℕ) : ℚ) = ((n - 1 : ℤ) : ℚ) := by
      exact_mod_cast congrArg (fun z : ℤ => (z : ℚ))
        (Int.toNat_of_nonneg (by omega : (0 : ℤ) ≤ n - 1))
    unfold sweepFreq
    rw [h1, h2, div_self (by exact_mod_cast (by omega : (n - 1 : ℤ) ≠ 0))]
    ring
  · exact lt_of_lt_of_le zero_lt_one (le_max_left _ _)
  · intro sinv rate g hg
    obtain ⟨k, sec, g0, g1⟩ := g
    simp only at hg
    subst hg
    rfl

/-- Witness for C7 on a five-frame sweep from 450 to 1000. -/
theorem C7_witness :
    sweepFreq 450 1000 5 0 = 450
    ∧ (2 ≤ (5 : ℤ))
    ∧ sweepFreq 450 1000 5 ((5 : ℤ) - 1).toNat = 1000 :=
  ⟨(C7_sweep_frequency 450 1000 5).1, by decide,
   (C7_sweep_frequency 450 1000 5).2.1 (by decide)⟩

/-- C8: with the amplitude scale 0.75 of the full 16-bit range
(`max_amp = 24575`) and the library sine bounded by one in absolute value,
every emitted sample value lies strictly inside the signed 16-bit
representable range, so the 2-byte signed little-endian conversion never
fails and no wraparound occurs. -/
theorem C8_sample_range (sinv : ℚ → ℚ → ℚ) (hs : ∀ f t, |sinv f t| ≤ 1)
    (rate : ℚ) (pattern : List Seg) :
    ∀ fr ∈ make_pattern_wav sinv rate pattern,
      -32768 < fr.1 ∧ fr.1 < 32767 ∧ -32768 < fr.2 ∧ fr.2 < 32767 := by
  intro fr hfr
  rcases make_pattern_wav_shape sinv rate pattern fr hfr with h0 | ⟨f, t, hft⟩
  · rw [h0]
    refine ⟨by norm_num, by norm_num, by norm_num, by norm_num⟩
  · have hb := sampleVal_bound sinv hs f t
    rw [hft]
    exact ⟨by omega, by omega, by omega, by omega⟩

/-- Witness for C8 on a one-frame silence segment. -/
theorem C8_witness :
    -32768 < ((0 : ℤ), (0 : ℤ)).1 ∧ ((0 : ℤ), (0 : ℤ)).1 < 32767
    ∧ -32768 < ((0 : ℤ), (0 : ℤ)).2 ∧ ((0 : ℤ), (0 : ℤ)).2 < 32767 :=
  C8_sample_range (fun _ _ => 0) (by intro f t; simp) 1
    [⟨SegKind.silenceK, 1, 0, 0⟩] ((0 : ℤ), (0 : ℤ))
    (by simp [make_pattern_wav, segFrames, pyInt])

/-- C9: the synthesizer is deterministic: two runs with identical inputs
(same sine function, sample rate and pattern; bit depth, channel count and
amplitude scale are compile-time constants) produce byte-identical PCM
buffers. -/
theorem C9_deterministic (s1 s2 : ℚ → ℚ → ℚ) (r1 r2 : ℚ)
    (p1 p2 : List Seg) (hs : s1 = s2) (hr : r1 = r2) (hp : p1 = p2) :
    pcmBytes (make_pattern_wav s1 r1 p1)
      = pcmBytes (make_pattern_wav s2 r2 p2) := by
  subst hs; subst hr; subst hp; rfl

/-- Witness for C9 on the flood pattern. -/
theorem C9_witness :
    pcmBytes (make_pattern_wav (fun _ _ => 0) SAMPLE_RATE FLOOD_PATTERN)
      = pcmBytes (make_pattern_wav (fun _ _ => 0) SAMPLE_RATE FLOOD_PATTERN) :=
  C9_deterministic _ _ _ _ _ _ rfl rfl rfl

/-- C1 counterexample: from a looping state, `announce` with a failing
transcode step returns with the system no longer looping — the early
`return` on ffmpeg failure sits inside the `try`, before the
`if was_running: start_siren()` resume line, so the prior loop is not
restarted. This refutes the claim that the system is again `Looping(m)`
regardless of whether the transcode step succeeded. -/
theorem C1_counterexample :
    ((stepC (COp.cStart true) initState).running = true)
    ∧ ((announce false true true ("announce_1.webm") "announce_1.wav"
        (stepC (COp.cStart true) initState)).1.running = false) :=
  ⟨rfl, rfl⟩

/-- C1 (amended): for `announce` called on a looping system, if the
transcode step succeeds (and the resume spawn succeeds) the system ends
looping on the same mode regardless of the one-shot playback outcome; if
the transcode step fails the call returns an error response and leaves the
system idle — the prior loop is not resumed; in every case the temporary
uploaded and transcoded files created by the call no longer exist
afterward. -/
theorem C1_announce_resume (co po so : Bool) (sp wp : String)
    (s : SirenState) (hrun : s.running = true) (hsp : sp ∉ s.files)
    (hwp : wp ∉ s.files) :
    (co = true → so = true →
      (announce co po so sp wp s).1.running = true
      ∧ (announce co po so sp wp s).1.current_mode_idx = s.current_mode_idx)
    ∧ (co = false →
      (announce co po so sp wp s).1.running = false
      ∧ (announce co po so sp wp s).2 = Except.ok false)
    ∧ sp ∉ (announce co po so sp wp s).1.files
    ∧ wp ∉ (announce co po so sp wp s).1.files := by
  obtain ⟨idx, pp, run, nid, lv, fl, cu⟩ := s
  simp only at hrun hsp hwp
  subst hrun
  cases co
  · refine ⟨by simp, fun _ => ⟨?_, ?_⟩, ?_, ?_⟩
    · simp [announce, stop_siren]
    · simp [announce, stop_siren]
    · simp only [announce, stop_siren]
      simp [List.erase_cons_head, List.erase_of_not_mem hwp]
      exact hsp
    · simp only [announce, stop_siren]
      simp [List.erase_cons_head, List.erase_of_not_mem hwp]
      exact hwp
  · refine ⟨fun _ hso => ?_, by simp, ?_, ?_⟩
    · subst hso
      cases cu <;>
        simp [announce, stop_siren, start_siren, ensure_default_wavs]
    · cases so <;> cases cu <;>
        simp [announce, stop_siren, start_siren, ensure_default_wavs,
              erase_two, hsp]
    · cases so <;> cases cu <;>
        simp [announce, stop_siren, start_siren, ensure_default_wavs,
              erase_two, hwp]

/-- Witness for the amended C1 from a looping state, transcode succeeding
and one-shot playback failing. -/
theorem C1_witness :
    ((true = true → true = true →
      (announce true false true ("a.webm") "a.wav"
        (stepC (COp.cStart true) initState)).1.running = true
      ∧ (announce true false true ("a.webm") "a.wav"
          (stepC (COp.cStart true) initState)).1.current_mode_idx
        = (stepC (COp.cStart true) initState).current_mode_idx)
    ∧ (true = false →
      (announce true false true ("a.webm") "a.wav"
        (stepC (COp.cStart true) initState)).1.running = false
      ∧ (announce true false true ("a.webm") "a.wav"
          (stepC (COp.cStart true) initState)).2 = Except.ok false)
    ∧ "a.webm" ∉ (announce true false true ("a.webm") "a.wav"
        (stepC (COp.cStart true) initState)).1.files
    ∧ "a.wav" ∉ (announce true false true ("a.webm") "a.wav"
        (stepC (COp.cStart true) initState)).1.files) :=
  C1_announce_resume true false true ("a.webm") "a.wav"
    (stepC (COp.cStart true) initState) rfl (by decide) (by decide)

/-- Formalization of the replacement discipline the C2 claim asserts, in
the claim's own words: some temporary path distinct from the custom asset
path receives the transcoder output, and a rename of that temporary over
the custom asset path occurs. -/
def atomicReplaceTrace (tr : List FsOp) (target : String) : Prop :=
  ∃ tmp, tmp ≠ target ∧ (∃ srcp, FsOp.transcode srcp tmp ∈ tr)
    ∧ FsOp.renameFile tmp target ∈ tr

/-- C2 counterexample: the filesystem trace of a successful upload contains
no rename at all — `convert_to_wav` is invoked with `CUSTOM_WAV` itself as
its output path — so the custom asset is not replaced by a
write-to-temp-then-rename. -/
theorem C2_counterexample :
    ¬ atomicReplaceTrace
        (upload_audio true ("new-bytes") (fun c => c) true ("upload_1.webm")
          initState).2 CUSTOM_WAV := by
  intro h
  obtain ⟨tmp, hne, ⟨srcp, hmem⟩, hren⟩ := h
  have htr : (upload_audio true ("new-bytes") (fun c => c) true ("upload_1.webm")
      initState).2
      = [FsOp.save ("upload_1.webm"),
         FsOp.transcode ("upload_1.webm") CUSTOM_WAV,
         FsOp.unlink ("upload_1.webm")] := rfl
  rw [htr] at hren
  simp at hren

/-- C2 (amended): on a transcode failure `upload_audio` returns an error
and — provided the external transcoder leaves its destination untouched
when it fails — the prior custom asset content and `hasCustomAsset` in the
status are unchanged from before the call; on a successful upload the
transcoder writes the new content directly to the custom asset path: the
operation's filesystem trace contains a transcode targeting `CUSTOM_WAV`
itself and no rename, so there is no write-to-temp-then-rename step. -/
theorem C2_upload_failure (fe : Option String → Option String)
    (hfe : ∀ x, fe x = x) (nc sp : String) (so : Bool) (s : SirenState) :
    (upload_audio false nc fe so sp s).1.1.customContent = s.customContent
    ∧ (status (upload_audio false nc fe so sp s).1.1).custom_exists
        = (status s).custom_exists
    ∧ (upload_audio false nc fe so sp s).1.2 = some false
    ∧ (∀ a b, FsOp.renameFile a b ∉ (upload_audio true nc fe so sp s).2)
    ∧ FsOp.transcode sp CUSTOM_WAV ∈ (upload_audio true nc fe so sp s).2 := by
  refine ⟨?_, ?_, ?_, ?_, ?_⟩
  · simp [upload_audio, hfe]
  · simp [upload_audio, status, hfe]
  · simp [upload_audio]
  · intro a b
    have htr : (upload_audio true nc fe so sp s).2
        = [FsOp.save sp, FsOp.transcode sp CUSTOM_WAV, FsOp.unlink sp] := rfl
    rw [htr]
    simp
  · have htr : (upload_audio true nc fe so sp s).2
        = [FsOp.save sp, FsOp.transcode sp CUSTOM_WAV, FsOp.unlink sp] := rfl
    rw [htr]
    simp

/-- Witness for the amended C2 at a concrete failing upload. -/
theorem C2_witness :
    (upload_audio false ("nc") (fun c => c) true ("u.webm") initState).1.1.customContent
        = initState.customContent
    ∧ (status (upload_audio false ("nc") (fun c => c) true ("u.webm")
        initState).1.1).custom_exists = (status initState).custom_exists
    ∧ (upload_audio false ("nc") (fun c => c) true ("u.webm") initState).1.2
        = some false
    ∧ FsOp.renameFile ("t.wav") CUSTOM_WAV
        ∉ (upload_audio true ("nc") (fun c => c) true ("u.webm") initState).2
    ∧ FsOp.transcode ("u.webm") CUSTOM_WAV
        ∈ (upload_audio true ("nc") (fun c => c) true ("u.webm") initState).2 :=
  ⟨(C2_upload_failure (fun c => c) (fun _ => rfl) "nc" "u.webm" true initState).1,
   (C2_upload_failure (fun c => c) (fun _ => rfl) "nc" "u.webm" true initState).2.1,
   (C2_upload_failure (fun c => c) (fun _ => rfl) "nc" "u.webm" true initState).2.2.1,
   (C2_upload_failure (fun c => c) (fun _ => rfl) "nc" "u.webm" true
      initState).2.2.2.1 ("t.wav") CUSTOM_WAV,
   (C2_upload_failure (fun c => c) (fun _ => rfl) "nc" "u.webm" true
      initState).2.2.2.2⟩
